import Mathlib

/-!
Shallow embedding of the constellation-fetch pipeline
(src/fetch_constellation.py) and proofs about its specification.

Modelling conventions:
* JSON/Python values are modelled by `JsonV`; Python numbers (int/float)
  are modelled by exact rationals `ℚ` (the usual idealisation of IEEE
  doubles for decimal literals appearing in the program).
* Python dicts are modelled as insertion-ordered association lists with
  unique keys; `dictSet` models `d[k] = v` (overwrite keeps position).
* UTC instants are modelled by their POSIX-seconds value in `ℚ`;
  `datetime.isoformat` is injective on instants, so equality of instants
  is equality of these rationals.  The year-range bound of Python
  `datetime` is elided.
* Fallible external parsers (`json.loads`, `json5.loads`, `dateutil`)
  are abstract parameters of type `String → Except String JsonV`
  (respectively `String → Option ℚ` for the calendar parser): an
  `Except.error`/`none` result models a raised exception / failed parse.
-/

mutual
/-- Model of a decoded JSON / Python value.  Objects carry their own
key/value spine `JsonKVs` (isomorphic to `List (String × JsonV)`) so that
recursion through object values is structural. -/
inductive JsonV where
  | null : JsonV
  | bool : Bool → JsonV
  | num : ℚ → JsonV
  | str : String → JsonV
  | arr : List JsonV → JsonV
  | obj : JsonKVs → JsonV
/-- Key/value spine of a JSON object, in insertion order. -/
inductive JsonKVs where
  | nil : JsonKVs
  | cons : String → JsonV → JsonKVs → JsonKVs
end

/-- The key/value pairs of an object spine, as a list. -/
def JsonKVs.toList : JsonKVs → List (String × JsonV)
  | .nil => []
  | .cons k v rest => (k, v) :: rest.toList

/-- Build an object spine from a list of key/value pairs. -/
def JsonKVs.ofList : List (String × JsonV) → JsonKVs
  | [] => .nil
  | (k, v) :: rest => .cons k v (JsonKVs.ofList rest)

/-- Python `\s` whitespace characters (ASCII). -/
def isPySpace (c : Char) : Bool :=
  c = ' ' || c = '\t' || c = '\n' || c = '\r' || c = Char.ofNat 12 || c = Char.ofNat 11

/-- Model of Python `str.strip()` on a character list. -/
def stripList (cs : List Char) : List Char :=
  ((cs.dropWhile isPySpace).reverse.dropWhile isPySpace).reverse

/-- Lowercase character test used by the key-canonicalisation regex. -/
def isLowerAlphaNum (c : Char) : Bool :=
  ('a' ≤ c && c ≤ 'z') || ('0' ≤ c && c ≤ '9')

/-- List-prefix test (by characters). -/
def startsWithL : List Char → List Char → Bool
  | [], _ => true
  | _ :: _, [] => false
  | p :: ps, c :: cs => p = c && startsWithL ps cs

/-- Model of Python `str.replace(pat, rep)`: replace every non-overlapping
occurrence, scanning left to right; replacements are not rescanned. -/
def replaceAllL (pat rep : List Char) : List Char → List Char
  | [] => []
  | c :: rest =>
    if pat ≠ [] ∧ startsWithL pat (c :: rest) then
      rep ++ replaceAllL pat rep ((c :: rest).drop pat.length)
    else
      c :: replaceAllL pat rep rest
termination_by l => l.length
decreasing_by
  all_goals simp only [List.length_drop, List.length_cons]
  · cases pat with
    | nil => simp_all
    | cons p ps => simp only [List.length_cons]; omega
  · omega

/-- Ordered synonym-substitution table of `normalize_key`
(src/fetch_constellation.py lines 28-32). -/
def replPairs : List (String × String) :=
  [("longitude", "lon"), ("long", "lon"), ("lng", "lon"),
   ("latitude", "lat"),
   ("altitude", "alt"),
   ("updatedat", "time"), ("lastseen", "time"), ("fixtime", "time"),
   ("timestampms", "timestamp"), ("timeunix", "timestamp")]

/-- Embedding of `normalize_key` (lines 24-33): strip, lowercase, drop
non-alphanumerics, then apply the ordered synonym substitutions. -/
def normalizeKey (name : String) : String :=
  let cs := (stripList name.toList).map Char.toLower
  let cs := cs.filter isLowerAlphaNum
  let cs := replPairs.foldl (fun s p => replaceAllL p.1.toList p.2.toList s) cs
  String.mk cs

/-- Numeric value of a digit character. -/
def digitVal (c : Char) : Nat := c.toNat - 48

/-- Natural number denoted by a digit string. -/
def natOfDigits (ds : List Char) : Nat :=
  ds.foldl (fun n c => n * 10 + digitVal c) 0

/-- Anchored match of the regex `[-+]?\d+(?:\.\d+)?` at the head of the
input, returning the denoted rational and the unconsumed suffix.  The
greedy, non-backtracking parse is equivalent to the regex here because no
shorter digit run can enable a longer overall match. -/
def matchNumAt (cs : List Char) : Option (ℚ × List Char) :=
  let core : Bool → List Char → Option (ℚ × List Char) := fun neg l =>
    let ds := l.takeWhile Char.isDigit
    let rest := l.dropWhile Char.isDigit
    if ds = [] then none
    else
      let intPart : ℚ := (natOfDigits ds : ℚ)
      let (v, rest2) :=
        match rest with
        | '.' :: r2 =>
          let fs := r2.takeWhile Char.isDigit
          if fs = [] then (intPart, rest)
          else (intPart + (natOfDigits fs : ℚ) / ((10 : ℚ) ^ fs.length),
                r2.dropWhile Char.isDigit)
        | _ => (intPart, rest)
      some (if neg then -v else v, rest2)
  match cs with
  | [] => none
  | c :: r =>
    if c = '-' ∨ c = '+' then
      match r with
      | d :: _ => if d.isDigit then core (c = '-') r else none
      | [] => none
    else if c.isDigit then core false cs else none

/-- Model of `re.search(r"[-+]?\d+(?:\.\d+)?", s)`: value of the leftmost
match, if any. -/
def searchNum : List Char → Option ℚ
  | [] => none
  | c :: rest =>
    match matchNumAt (c :: rest) with
    | some (q, _) => some q
    | none => searchNum rest

/-- Model of `re.fullmatch(r"[-+]?\d+(?:\.\d+)?", s.strip())` combined with
`float(s)`: the numeric value when the stripped string is a bare number. -/
def parseBareNum (s : String) : Option ℚ :=
  match matchNumAt (stripList s.toList) with
  | some (q, []) => some q
  | _ => none

/-- Embedding of `coerce_float` (lines 145-164): numbers pass through
(bools excluded), strings are searched for the first embedded number,
everything else yields `None`. -/
def coerceFloat (v : JsonV) : Option ℚ :=
  match v with
  | .num q => some q
  | .bool _ => none
  | .str s => searchNum (stripList s.toList)
  | _ => none

/-- Model of the Python builtin `float(x)` as used by `enumerate_records`:
numbers pass through, booleans become 0/1, simple decimal strings parse
(exponent / inf / leading-dot forms, which no claim exercises, are
modelled as failures), everything else raises (= `none`). -/
def pyFloat (v : JsonV) : Option ℚ :=
  match v with
  | .num q => some q
  | .bool b => some (if b then 1 else 0)
  | .str s => parseBareNum s
  | _ => none

/-- Model of Python dict assignment `out[key] = v`: overwrite in place if
the key exists (keeping its position), otherwise append. -/
def dictSet (out : List (String × JsonV)) (k : String) (v : JsonV) :
    List (String × JsonV) :=
  if (out.lookup k).isSome then
    out.map (fun p => if p.1 = k then (k, v) else p)
  else out ++ [(k, v)]

mutual
/-- Recursive descent of `flatten_dict` (lines 87-97) into one value. -/
def flattenV : JsonV → String → List (String × JsonV) → List (String × JsonV)
  | .obj kvs, pfx, out => flattenKVs kvs pfx out
  | _, _, out => out
/-- Loop body of `flatten_dict` (lines 90-96): walk the key/value pairs,
recursing into object values with the dotted joined path and storing
other values under the canonicalised key. -/
def flattenKVs : JsonKVs → String → List (String × JsonV) →
    List (String × JsonV)
  | .nil, _, out => out
  | .cons k v rest, pfx, out =>
    let joined := if pfx = "" then k else pfx ++ "." ++ k
    let out2 :=
      match v with
      | .obj _ => flattenV v joined out
      | _ => dictSet out (normalizeKey joined) v
    flattenKVs rest pfx out2
end

/-- Embedding of `flatten_dict` (lines 87-97) applied to one raw record. -/
def flattenDict : JsonV → List (String × JsonV)
  | .obj kvs => flattenKVs kvs "" []
  | _ => []

/-- Test for the Python `None` value (`is not None` checks). -/
def isNull (v : JsonV) : Bool :=
  match v with
  | .null => true
  | _ => false

/-- Latitude candidate keys of `extract_lat_lon` (line 168). -/
def latKeys : List String := ["lat", "late7", "latitude", "gpslat", "positionlat"]

/-- Longitude candidate keys of `extract_lat_lon` (line 169). -/
def lonKeys : List String :=
  ["lon", "lnge7", "lone7", "longitude", "gpslon", "positionlon"]

/-- Scan of the candidate-key loops in `extract_lat_lon` (lines 185-194):
the first key that is present with a non-`None` value supplies the value
(its coercion, which may itself fail) and the loop breaks. -/
def scanKeys (flat : List (String × JsonV)) : List String → Option ℚ
  | [] => none
  | k :: ks =>
    match flat.lookup k with
    | some v => if isNull v then scanKeys flat ks else coerceFloat v
    | none => scanKeys flat ks

/-- Latitude resolution of `extract_lat_lon` (lines 170-189), before the
range check: the `late7` field (divided by 1e7) if present and coercible,
otherwise the candidate-key scan. -/
def resolveLat (flat : List (String × JsonV)) : Option ℚ :=
  let latE7 : Option ℚ :=
    match flat.lookup "late7" with
    | some v => if isNull v then none
                else (coerceFloat v).map (fun x => x / 10000000)
    | none => none
  match latE7 with
  | some x => some x
  | none => scanKeys flat latKeys

/-- Longitude resolution of `extract_lat_lon` (lines 171-194), before the
range check.  A present non-`None` `lnge7` is assigned last, so it
overwrites a `lone7` result even when its own coercion fails. -/
def resolveLon (flat : List (String × JsonV)) : Option ℚ :=
  let lon1 : Option ℚ :=
    match flat.lookup "lone7" with
    | some v => if isNull v then none
                else (coerceFloat v).map (fun x => x / 10000000)
    | none => none
  let lonE7 : Option ℚ :=
    match flat.lookup "lnge7" with
    | some v => if isNull v then lon1
                else (coerceFloat v).map (fun x => x / 10000000)
    | none => lon1
  match lonE7 with
  | some x => some x
  | none => scanKeys flat lonKeys

/-- Embedding of `extract_lat_lon` (lines 167-199): resolution followed by
the range checks that discard out-of-range coordinates. -/
def extractLatLon (flat : List (String × JsonV)) : Option ℚ × Option ℚ :=
  (match resolveLat flat with
   | some l => if (-90 : ℚ) > l ∨ l > 90 then none else some l
   | none => none,
   match resolveLon flat with
   | some l => if (-180 : ℚ) > l ∨ l > 180 then none else some l
   | none => none)

/-- Embedding of `feet_to_meters` (lines 202-203). -/
def feetToMeters (feet : ℚ) : ℚ := feet * 0.3048

/-- Meter-flavoured candidate keys of `extract_alt_m` (lines 213-215). -/
def meterKeys : List String :=
  ["altm", "altitudem", "altitude", "alt", "msl", "baroaltitude",
   "elevation", "height", "agl"]

/-- Feet-flavoured candidate keys of `extract_alt_m` (line 222). -/
def feetKeys : List String := ["altft", "altitudeft", "altfeet", "feet", "altftmsl"]

/-- Scan of the meter/feet key loops in `extract_alt_m` (lines 216-227):
unlike the coordinate loops, a failed coercion moves on to the next key. -/
def scanKeysCont (flat : List (String × JsonV)) : List String → Option ℚ
  | [] => none
  | k :: ks =>
    match flat.lookup k with
    | some v =>
      if isNull v then scanKeysCont flat ks
      else
        match coerceFloat v with
        | some x => some x
        | none => scanKeysCont flat ks
    | none => scanKeysCont flat ks

/-- Unit tokens of the regex on line 232, in alternation order. -/
def unitTokens : List String :=
  ["m", "meter", "meters", "km", "kilometer", "kilometers", "ft", "feet"]

/-- Word-boundary test (`\b`) after a matched unit token. -/
def boundaryOk (l : List Char) : Bool :=
  match l with
  | [] => true
  | c :: _ => !(c.isAlphanum || c = '_')

/-- Ordered-alternation match of a unit token at the head of the input,
with the regex word boundary after it. -/
def findToken (rest : List Char) : List String → Option String
  | [] => none
  | t :: ts =>
    if startsWithL t.toList rest && boundaryOk (rest.drop t.toList.length) then
      some t
    else findToken rest ts

/-- Unit-conversion branch of `extract_alt_m` (lines 236-240), verbatim:
note that `startsWith "km"` is false for the spelled-out kilometer tokens,
which therefore fall through to the feet conversion. -/
def unitConv (num : ℚ) (u : String) : ℚ :=
  if startsWithL "m".toList u.toList ∧ u ≠ "meters" then num
  else if startsWithL "km".toList u.toList then num * 1000
  else if startsWithL "m".toList u.toList then num
  else feetToMeters num

/-- Anchored match of the units regex on line 232 against an
already-stripped-and-lowercased string, returning the converted value. -/
def matchAltUnits (cs : List Char) : Option ℚ :=
  match matchNumAt cs with
  | none => none
  | some (q, rest) =>
    let rest2 := rest.dropWhile isPySpace
    match findToken rest2 unitTokens with
    | none => none
    | some t => some (unitConv q t)

/-- String-valued field scan of `extract_alt_m` (lines 229-240): the
first string field whose stripped lowercase form matches the units regex
determines the result. -/
def scanUnitStrings : List (String × JsonV) → Option ℚ
  | [] => none
  | (_, v) :: rest =>
    match v with
    | .str s =>
      match matchAltUnits ((stripList s.toList).map Char.toLower) with
      | some r => some r
      | none => scanUnitStrings rest
    | _ => scanUnitStrings rest

/-- Embedding of `extract_alt_m` (lines 206-241). -/
def extractAltM (flat : List (String × JsonV)) : Option ℚ :=
  let kmStep : Option ℚ :=
    match flat.lookup "altkm" with
    | some v => if isNull v then none else (coerceFloat v).map (fun x => x * 1000)
    | none => none
  match kmStep with
  | some x => some x
  | none =>
    match scanKeysCont flat meterKeys with
    | some x => some x
    | none =>
      match scanKeysCont flat feetKeys with
      | some x => some (feetToMeters x)
      | none => scanUnitStrings flat

/-- Timestamp candidate keys of `parse_time_to_iso` (lines 245-247). -/
def timeKeys : List String :=
  ["time", "timestamp", "ts", "datetime", "date", "lastseen", "updated",
   "updatedat", "fixtime"]

/-- First candidate key that is present with a non-`None` value
(lines 249-252), returning the raw value. -/
def firstPresent (flat : List (String × JsonV)) : List String → Option JsonV
  | [] => none
  | k :: ks =>
    match flat.lookup k with
    | some v => if isNull v then firstPresent flat ks else some v
    | none => firstPresent flat ks

/-- Seconds/milliseconds heuristic of `parse_time_to_iso`
(lines 258-262 and 269-273), with both magnitude branches as written. -/
def msHeuristic (q : ℚ) : ℚ :=
  if q > 1000000000000 then q / 1000
  else if q > 10000000000 then q / 1000
  else q

/-- Embedding of `parse_time_to_iso` (lines 244-281).  `fb` abstracts the
`dateutil` calendar parser (normalised to a UTC instant), which is only
reached for strings that are not bare numbers; a raised exception is
`none`.  Instants are POSIX seconds. -/
def parseTimeToIso (fb : String → Option ℚ)
    (flat : List (String × JsonV)) : Option ℚ :=
  match firstPresent flat timeKeys with
  | none => none
  | some v =>
    match v with
    | .num q => some (msHeuristic q)
    | .str s =>
      match parseBareNum s with
      | some q => some (msHeuristic q)
      | none => fb s
    | _ => none

/-- Identity candidate keys of `extract_id` (lines 285-287). -/
def idKeys : List String :=
  ["id", "balloonid", "flightid", "deviceid", "serial", "name",
   "identifier", "uuid"]

/-- Python truthiness of a value (`if flat[k]:`). -/
def truthy (v : JsonV) : Bool :=
  match v with
  | .null => false
  | .bool b => b
  | .num q => decide (q ≠ 0)
  | .str s => decide (s ≠ "")
  | .arr l => !l.isEmpty
  | .obj kvs => !kvs.toList.isEmpty

/-- Model of the Python builtin `str(x)` as applied to id values.
Container and numeral renderings are abbreviated (no claim depends on
them); strings pass through unchanged. -/
def pyStr (v : JsonV) : String :=
  match v with
  | .null => "None"
  | .bool true => "True"
  | .bool false => "False"
  | .str s => s
  | .num q => toString q
  | .arr _ => "<list>"
  | .obj _ => "<dict>"

/-- First identity candidate key with a truthy value (lines 288-290). -/
def firstTruthy (flat : List (String × JsonV)) : List String → Option JsonV
  | [] => none
  | k :: ks =>
    match flat.lookup k with
    | some v => if truthy v then some v else firstTruthy flat ks
    | none => firstTruthy flat ks

/-- Embedding of `extract_id` (lines 284-294): candidate keys first, then
the truthy parent key, otherwise no identity. -/
def extractId (pk : Option String) (flat : List (String × JsonV)) :
    Option String :=
  match firstTruthy flat idKeys with
  | some v => some (pyStr v)
  | none =>
    match pk with
    | some p => if p = "" then none else some p
    | none => none

/-- The canonical output unit built by `standardize_record`
(lines 310-318). -/
structure SRec where
  id : Option String
  lat : ℚ
  lon : ℚ
  alt_m : Option ℚ
  time_iso : ℚ
  source_hour : Int
  raw_index : Nat
deriving DecidableEq, Repr

/-- Fallback snapshot time of `standardize_record` (lines 305-308):
current time minus the source-hour offset, truncated to the top of the
hour (hour boundaries align with multiples of 3600 POSIX seconds). -/
def approxTime (now : ℚ) (source_hour : Int) : ℚ :=
  3600 * ((Rat.floor ((now - 3600 * (source_hour : ℚ)) / 3600) : Int) : ℚ)

/-- Embedding of `standardize_record` (lines 297-318).  `fb` abstracts the
calendar parser and `now` the wall clock. -/
def standardizeRecord (fb : String → Option ℚ) (pk : Option String)
    (rec : JsonV) (source_hour : Int) (raw_index : Nat) (now : ℚ) :
    Option SRec :=
  let flat := flattenDict rec
  match extractLatLon flat with
  | (some lat, some lon) =>
    some { id := extractId pk flat
           lat := lat
           lon := lon
           alt_m := extractAltM flat
           time_iso :=
             match parseTimeToIso fb flat with
             | some t => t
             | none => approxTime now source_hour
           source_hour := source_hour
           raw_index := raw_index }
  | _ => none

/-- Test whether the head of a list is an object (or the list is empty),
as in the wrapper-detection of `enumerate_records` (line 128). -/
def headObjOrEmpty (l : List JsonV) : Bool :=
  match l with
  | [] => true
  | .obj _ :: _ => true
  | _ => false

/-- Object test (`isinstance(v, dict)`). -/
def isObjV (v : JsonV) : Bool :=
  match v with
  | .obj _ => true
  | _ => false

/-- The array-element heuristic of `enumerate_records` (lines 104-124):
dict elements are records; array-likes of length at least two are read
positionally as `[lat, lon, optional altitude-in-km]`; other elements are
skipped. -/
def enumArrayItem (rec : JsonV) : Option (Option String × JsonV) :=
  match rec with
  | .obj _ => some (none, rec)
  | .arr l =>
    match l with
    | a :: b :: rest =>
      match pyFloat a, pyFloat b with
      | some la, some lo =>
        let base : List (String × JsonV) := [("lat", JsonV.num la), ("lon", JsonV.num lo)]
        let withAlt :=
          match rest with
          | [] => base
          | c :: _ =>
            if isNull c then base
            else
              match pyFloat c with
              | some ak => base ++ [("altkm", JsonV.num ak)]
              | none => base
        some (none, JsonV.obj (JsonKVs.ofList withAlt))
      | _, _ => none
    | _ => none
  | _ => none

/-- Embedding of `enumerate_records` (lines 100-142): shape dispatch on
the decoded value, yielding `(optional parent key, raw record)` pairs. -/
def enumerateRecords (j : JsonV) : List (Option String × JsonV) :=
  match j with
  | .arr items => items.filterMap enumArrayItem
  | .obj kvs =>
    let cands := kvs.toList.filterMap (fun kv =>
      match kv.2 with
      | .arr l => if headObjOrEmpty l then some l else none
      | _ => none)
    match cands with
    | c :: cs =>
      (cs.foldl (fun best x => if best.length < x.length then x else best) c).map
        (fun r => ((none : Option String), r))
    | [] =>
      if kvs.toList.all (fun kv => isObjV kv.2) then
        kvs.toList.map (fun kv => (some kv.1, kv.2))
      else [(none, .obj kvs)]
  | _ => []

/-- Round-half-to-even to an integer, the tie behaviour of Python
`round`. -/
def pyRoundHalfEven (q : ℚ) : Int :=
  let n := Rat.floor q
  let r := q - (n : ℚ)
  if r < 1 / 2 then n
  else if 1 / 2 < r then n + 1
  else if n % 2 = 0 then n else n + 1

/-- Model of Python `round(x, 6)` on exact rationals. -/
def pyRound6 (q : ℚ) : ℚ := ((pyRoundHalfEven (q * 1000000) : Int) : ℚ) / 1000000

/-- The dedup key of `build_records` (line 388):
`(id, time_iso, round(lat, 6), round(lon, 6))`. -/
def dedupKey (s : SRec) : Option String × ℚ × ℚ × ℚ :=
  (s.id, s.time_iso, pyRound6 s.lat, pyRound6 s.lon)

/-- Abbreviation for the dedup-key tuple type. -/
abbrev DKey := Option String × ℚ × ℚ × ℚ

/-- Inner loop of `build_records` (lines 384-392) over one hour's
enumerated records, threading the `seen` key set. -/
def hourLoop (fb : String → Option ℚ) (now : ℚ) (hour : Int) :
    List (Nat × (Option String × JsonV)) → List DKey → List SRec × List DKey
  | [], seen => ([], seen)
  | (idx, pr) :: rest, seen =>
    match standardizeRecord fb pr.1 pr.2 hour idx now with
    | none => hourLoop fb now hour rest seen
    | some s =>
      if dedupKey s ∈ seen then hourLoop fb now hour rest seen
      else
        let out := hourLoop fb now hour rest (dedupKey s :: seen)
        (s :: out.1, out.2)

/-- Outer loop of `build_records` (lines 383-392) over the fetched
`(hour, payload)` pairs. -/
def buildLoop (fb : String → Option ℚ) (now : ℚ) :
    List (Int × JsonV) → List DKey → List SRec
  | [], _ => []
  | (hour, data) :: rest, seen =>
    let pr := hourLoop fb now hour (enumerateRecords data).enum seen
    pr.1 ++ buildLoop fb now rest pr.2

/-- Embedding of `build_records` (lines 380-393). -/
def buildRecords (fb : String → Option ℚ) (now : ℚ)
    (fetched : List (Int × JsonV)) : List SRec :=
  buildLoop fb now fetched []

/-- All records of one hour that standardisation accepts, with their
enumeration indices. -/
def perHour (fb : String → Option ℚ) (now : ℚ) (hour : Int) (data : JsonV) :
    List SRec :=
  (enumerateRecords data).enum.filterMap
    (fun q => standardizeRecord fb q.2.1 q.2.2 hour q.1 now)

/-- The full standardised stream of a run, in fetched order: every hour's
accepted records, concatenated. -/
def standardizedAll (fb : String → Option ℚ) (now : ℚ)
    (fetched : List (Int × JsonV)) : List SRec :=
  (fetched.map (fun p => perHour fb now p.1 p.2)).flatten

/-- Deduplication as the specification words it: walking the stream in
order, a record is retained exactly when no earlier record of the stream
has an equal dedup key. -/
def specKeepFirsts (earlier : List SRec) : List SRec → List SRec
  | [] => []
  | x :: xs =>
    if earlier.any (fun r => decide (dedupKey r = dedupKey x)) then
      specKeepFirsts (earlier ++ [x]) xs
    else
      x :: specKeepFirsts (earlier ++ [x]) xs

/-- Dedup pass over an explicit record stream with a `seen` key set,
also returning the final key set. -/
def dedupStreamS : List SRec → List DKey → List SRec × List DKey
  | [], seen => ([], seen)
  | s :: rest, seen =>
    if dedupKey s ∈ seen then dedupStreamS rest seen
    else
      let pr := dedupStreamS rest (dedupKey s :: seen)
      (s :: pr.1, pr.2)

/-- Strict (hour, enumeration-index) lexicographic order on standard
records. -/
def lexLt (a b : SRec) : Prop :=
  a.source_hour < b.source_hour ∨
    (a.source_hour = b.source_hour ∧ a.raw_index < b.raw_index)

/-- The record dict literal built by `standardize_record` (lines 310-318),
in its construction (= NDJSON serialisation) order. -/
def recDict (r : SRec) : List (String × JsonV) :=
  [("id", match r.id with | some s => JsonV.str s | none => JsonV.null),
   ("lat", JsonV.num r.lat),
   ("lon", JsonV.num r.lon),
   ("alt_m", match r.alt_m with | some a => JsonV.num a | none => JsonV.null),
   ("time_iso", JsonV.num r.time_iso),
   ("source_hour", JsonV.num (r.source_hour : ℚ)),
   ("raw_index", JsonV.num (r.raw_index : ℚ))]

/-- Field-name order of an NDJSON line (`json.dumps` preserves dict
insertion order). -/
def ndjsonFieldOrder : List String :=
  ["id", "lat", "lon", "alt_m", "time_iso", "source_hour", "raw_index"]

/-- The NDJSON output of `write_outputs` (lines 361-363): one encoded
record per line, modelled as the ordered field list of each record. -/
def ndjsonLines (records : List SRec) : List (List (String × JsonV)) :=
  records.map recDict

/-- The CSV header row written by `write_outputs` (line 366). -/
def csvHeader : List String :=
  ["id", "time_iso", "lat", "lon", "alt_m", "source_hour", "raw_index"]

/-- Model of `rec.get(k)` on the standardised record dict. -/
def dictGet (d : List (String × JsonV)) (k : String) : JsonV :=
  (d.lookup k).getD JsonV.null

/-- One CSV data row of `write_outputs` (lines 368-376), with the
`rec.get` calls in their written order. -/
def csvRow (r : SRec) : List JsonV :=
  [dictGet (recDict r) "id",
   dictGet (recDict r) "time_iso",
   dictGet (recDict r) "lat",
   dictGet (recDict r) "lon",
   dictGet (recDict r) "alt_m",
   dictGet (recDict r) "source_hour",
   dictGet (recDict r) "raw_index"]

/-- The CSV data rows of `write_outputs`. -/
def csvRows (records : List SRec) : List (List JsonV) :=
  records.map csvRow

/-- Model of `re.sub(r",\s*([\]\}])", r"\1", text)` (line 48): delete a
comma standing before optional whitespace and a closing bracket, scanning
left to right without rescanning replacements. -/
def removeTrailingCommas : List Char → List Char
  | [] => []
  | c :: rest =>
    if c = ',' then
      match h : rest.dropWhile isPySpace with
      | b :: rest2 =>
        if b = ']' || b = Char.ofNat 125 then b :: removeTrailingCommas rest2
        else c :: removeTrailingCommas rest
      | [] => c :: removeTrailingCommas rest
    else c :: removeTrailingCommas rest
termination_by l => l.length
decreasing_by
  · have h2 : (rest.dropWhile isPySpace).length ≤ rest.length :=
      (List.dropWhile_sublist isPySpace).length_le
    rw [h] at h2
    simp only [List.length_cons] at h2 ⊢
    omega
  · simp only [List.length_cons]; omega
  · simp only [List.length_cons]; omega
  · simp only [List.length_cons]; omega

/-- Trim to the span from the first opening bracket to the last closing
bracket (lines 49-57); left unchanged when either is missing. -/
def trimToBrackets (cs : List Char) : List Char :=
  match cs.findIdx? (fun c => c = '[' || c = Char.ofNat 123) with
  | none => cs
  | some i =>
    match cs.reverse.findIdx? (fun c => c = ']' || c = Char.ofNat 125) with
    | none => cs
    | some rj =>
      let lastIdx := cs.length - 1 - rj
      (cs.drop i).take (lastIdx + 1 - i)

/-- The repaired text used by strategies 3 and 4 of `try_json_loads`
(lines 47-57). -/
def repairText (text : String) : String :=
  String.mk (trimToBrackets (removeTrailingCommas text.toList))

/-- Drop characters until the first occurrence of `ch`, keeping it
(`text.find` + suffix); `none` when absent. -/
def dropUntilChar (ch : Char) : List Char → Option (List Char)
  | [] => none
  | c :: rest => if c = ch then some (c :: rest) else dropUntilChar ch rest

/-- Balance walk of `try_extract_json_fragment` (lines 71-83): starting
from the first opener, return the span up to the character that first
brings the balance back to zero. -/
def findBalanced (op cl : Char) : List Char → Int → List Char →
    Option (List Char)
  | [], _, _ => none
  | c :: rest, bal, acc =>
    if c = op then findBalanced op cl rest (bal + 1) (acc ++ [c])
    else if c = cl then
      if bal = 1 then some (acc ++ [c])
      else findBalanced op cl rest (bal - 1) (acc ++ [c])
    else findBalanced op cl rest bal (acc ++ [c])

/-- One opener/closer attempt of `try_extract_json_fragment`: find the
first balanced span and lenient-parse it; any failure (no opener, no
balanced span, or parse error, which `break`s) moves on. -/
def fragFor (json5L : String → Except String JsonV) (op cl : Char)
    (cs : List Char) : Option JsonV :=
  match dropUntilChar op cs with
  | none => none
  | some suffix =>
    match findBalanced op cl suffix 0 [] with
    | none => none
    | some frag =>
      match json5L (String.mk frag) with
      | .ok v => some v
      | .error _ => none

/-- Embedding of `try_extract_json_fragment` (lines 65-84): array
brackets first, then object brackets. -/
def tryExtractJsonFragment (json5L : String → Except String JsonV)
    (text : String) : Option JsonV :=
  match fragFor json5L '[' ']' text.toList with
  | some v => some v
  | none => fragFor json5L (Char.ofNat 123) (Char.ofNat 125) text.toList

/-- Embedding of `try_json_loads` (lines 36-63), the four-strategy
decoder ladder over abstract fallible parsers. -/
def tryJsonLoads (jsonL json5L : String → Except String JsonV)
    (text : String) : Option JsonV :=
  match jsonL text with
  | .ok v => some v
  | .error _ =>
    match json5L text with
    | .ok v => some v
    | .error _ =>
      let repaired := repairText text
      match json5L repaired with
      | .ok v => some v
      | .error _ => tryExtractJsonFragment json5L repaired

/-- Test for a raised-exception result of an abstract parser. -/
def isErrE (e : Except String JsonV) : Bool :=
  match e with
  | .error _ => true
  | .ok _ => false

/-- Embedding of `fetch_one` (lines 321-334): a network outcome (`net`)
followed by decoding; an exception yields `(hour, None, message)`. -/
def fetchOne (net : Nat → Except String String)
    (jsonL json5L : String → Except String JsonV) (hour : Nat) :
    Nat × Option JsonV × Option String :=
  match net hour with
  | .ok text => (hour, tryJsonLoads jsonL json5L text, none)
  | .error e => (hour, none, some e)

/-- Embedding of `fetch_all` (lines 337-354) by its deterministic
post-sort outcome: each hour in `[0, hours)` is attempted, successes with
a recovered value go to `results`, everything else to `errors` (a decode
failure is reported as "unknown error"); both lists are ascending by
hour.  The bounded-concurrency scheduling itself is abstracted away. -/
def fetchAll (net : Nat → Except String String)
    (jsonL json5L : String → Except String JsonV) (hours : Nat) :
    List (Nat × JsonV) × List (Nat × String) :=
  let outcomes := (List.range hours).map (fetchOne net jsonL json5L)
  (outcomes.filterMap (fun t =>
     match t with
     | (h, some d, none) => some (h, d)
     | _ => none),
   outcomes.filterMap (fun t =>
     match t with
     | (_, some _, none) => none
     | (h, _, some e) => some (h, e)
     | (h, none, none) => some (h, "unknown error")))

/-- Result of one pipeline run (`main`, lines 407-428): the fetched and
failed hours, the final records, both output files, and the completion
status. -/
structure MainOut where
  results : List (Nat × JsonV)
  errors : List (Nat × String)
  records : List SRec
  ndjson : List (List (String × JsonV))
  csv : List (List JsonV)
  exitCode : Int

/-- Embedding of `main` (lines 407-428): clamp the hours option to
`[1, 24]`, fetch, build records, write both outputs, return 0. -/
def mainModel (net : Nat → Except String String)
    (jsonL json5L : String → Except String JsonV)
    (fb : String → Option ℚ) (now : ℚ) (hoursArg : Int) : MainOut :=
  let hours := max 1 (min 24 hoursArg)
  let pr := fetchAll net jsonL json5L hours.toNat
  let records := buildRecords fb now (pr.1.map (fun p => ((p.1 : Int), p.2)))
  { results := pr.1
    errors := pr.2
    records := records
    ndjson := ndjsonLines records
    csv := csvRows records
    exitCode := 0 }

/-- One hour contributing nothing: the fetch fails outright or the
decoder recovers no value. -/
def hourFails (net : Nat → Except String String)
    (jsonL json5L : String → Except String JsonV) (h : Nat) : Prop :=
  match net h with
  | .error _ => True
  | .ok t => tryJsonLoads jsonL json5L t = none

/-- The latitude component of `extractLatLon` in terms of the raw
resolution and the range check. -/
theorem extractLatLon_fst (flat : List (String × JsonV)) :
    (extractLatLon flat).1 =
      match resolveLat flat with
      | some l => if (-90 : ℚ) > l ∨ l > 90 then none else some l
      | none => none := rfl

/-- The longitude component of `extractLatLon` in terms of the raw
resolution and the range check. -/
theorem extractLatLon_snd (flat : List (String × JsonV)) :
    (extractLatLon flat).2 =
      match resolveLon flat with
      | some l => if (-180 : ℚ) > l ∨ l > 180 then none else some l
      | none => none := rfl

/-- Membership of a rational in an interval, versus the negated
out-of-range test the code performs. -/
theorem inRange_iff_not_out (x lo hi : ℚ) :
    (lo ≤ x ∧ x ≤ hi) ↔ ¬(lo > x ∨ x > hi) := by
  rw [not_or, not_lt, not_lt]

/-- The record is emitted exactly when both components of the
range-checked coordinate pair are present. -/
theorem standardize_isSome (fb : String → Option ℚ) (pk : Option String)
    (rec : JsonV) (hour : Int) (idx : Nat) (now : ℚ) :
    (standardizeRecord fb pk rec hour idx now).isSome =
      ((extractLatLon (flattenDict rec)).1.isSome &&
       (extractLatLon (flattenDict rec)).2.isSome) := by
  unfold standardizeRecord
  dsimp only
  rcases h : extractLatLon (flattenDict rec) with ⟨a, b⟩
  cases a <;> cases b <;> simp

/-- Presence of the range-checked latitude, versus raw resolution plus
range membership. -/
theorem extractLat_isSome_iff (flat : List (String × JsonV)) :
    (extractLatLon flat).1.isSome = true ↔
      ∃ la, resolveLat flat = some la ∧ -90 ≤ la ∧ la ≤ 90 := by
  rw [extractLatLon_fst]
  rcases h : resolveLat flat with _ | la
  · simp
  · by_cases h1 : (-90 : ℚ) > la ∨ la > 90 <;>
      simp only [h1, if_true, if_false, Option.isSome_none, Option.isSome_some]
    · simp only [Bool.false_eq_true, false_iff]
      rintro ⟨la2, heq, hr1, hr2⟩
      cases Option.some.inj heq
      rcases h1 with h1 | h1 <;> linarith
    · push_neg at h1
      simp only [true_iff]
      exact ⟨la, rfl, h1.1, h1.2⟩

/-- Presence of the range-checked longitude, versus raw resolution plus
range membership. -/
theorem extractLon_isSome_iff (flat : List (String × JsonV)) :
    (extractLatLon flat).2.isSome = true ↔
      ∃ lo, resolveLon flat = some lo ∧ -180 ≤ lo ∧ lo ≤ 180 := by
  rw [extractLatLon_snd]
  rcases h : resolveLon flat with _ | lo
  · simp
  · by_cases h1 : (-180 : ℚ) > lo ∨ lo > 180 <;>
      simp only [h1, if_true, if_false, Option.isSome_none, Option.isSome_some]
    · simp only [Bool.false_eq_true, false_iff]
      rintro ⟨lo2, heq, hr1, hr2⟩
      cases Option.some.inj heq
      rcases h1 with h1 | h1 <;> linarith
    · push_neg at h1
      simp only [true_iff]
      exact ⟨lo, rfl, h1.1, h1.2⟩

/-- C1: `standardize_record` emits a record exactly when both a latitude
and a longitude are resolvable from the flattened record and lie in range
(latitude in `[-90, 90]`, longitude in `[-180, 180]`); no other field
affects the decision, for any calendar parser, wall clock, parent key,
source hour or index. -/
theorem c1_standardize_iff (fb : String → Option ℚ) (pk : Option String)
    (rec : JsonV) (hour : Int) (idx : Nat) (now : ℚ) :
    (standardizeRecord fb pk rec hour idx now).isSome = true ↔
      ((∃ la, resolveLat (flattenDict rec) = some la ∧ -90 ≤ la ∧ la ≤ 90) ∧
       (∃ lo, resolveLon (flattenDict rec) = some lo ∧ -180 ≤ lo ∧ lo ≤ 180)) := by
  rw [standardize_isSome, Bool.and_eq_true]
  rw [extractLat_isSome_iff, extractLon_isSome_iff]

/-- The inner hour loop is the dedup pass over that hour's standardised
records. -/
theorem hourLoop_eq_dedupStreamS (fb : String → Option ℚ) (now : ℚ)
    (hour : Int) (items : List (Nat × (Option String × JsonV))) :
    ∀ seen, hourLoop fb now hour items seen =
      dedupStreamS
        (items.filterMap fun q => standardizeRecord fb q.2.1 q.2.2 hour q.1 now)
        seen := by
  induction items with
  | nil => intro seen; rfl
  | cons hd tl ih =>
    intro seen
    rcases hd with ⟨idx, pk, rec⟩
    cases hs : standardizeRecord fb pk rec hour idx now with
    | none => simp [hourLoop, hs, ih]
    | some s =>
      by_cases hm : dedupKey s ∈ seen <;>
        simp [hourLoop, dedupStreamS, hs, hm, ih]

/-- The dedup pass distributes over concatenation, threading the key
set. -/
theorem dedupStreamS_append (a b : List SRec) :
    ∀ seen, dedupStreamS (a ++ b) seen =
      ((dedupStreamS a seen).1 ++ (dedupStreamS b (dedupStreamS a seen).2).1,
       (dedupStreamS b (dedupStreamS a seen).2).2) := by
  induction a with
  | nil => intro seen; simp [dedupStreamS]
  | cons x xs ih =>
    intro seen
    by_cases hm : dedupKey x ∈ seen <;> simp [dedupStreamS, hm, ih]

/-- The outer loop of `build_records` is the dedup pass over the whole
standardised stream. -/
theorem buildLoop_eq_dedupStreamS (fb : String → Option ℚ) (now : ℚ)
    (fetched : List (Int × JsonV)) :
    ∀ seen, buildLoop fb now fetched seen =
      (dedupStreamS (standardizedAll fb now fetched) seen).1 := by
  induction fetched with
  | nil => intro seen; rfl
  | cons hd tl ih =>
    intro seen
    rcases hd with ⟨hour, data⟩
    simp only [buildLoop, standardizedAll, List.map_cons, List.flatten_cons,
      hourLoop_eq_dedupStreamS, dedupStreamS_append]
    rw [ih]
    rfl

/-- The `seen`-set dedup pass agrees with the specification's
first-occurrence rule whenever the key set is exactly the keys of the
already-walked prefix. -/
theorem dedupStreamS_eq_specKeepFirsts :
    ∀ (l : List SRec) (seen : List DKey) (earlier : List SRec),
      (∀ k, k ∈ seen ↔ (earlier.any fun r => decide (dedupKey r = k)) = true) →
      (dedupStreamS l seen).1 = specKeepFirsts earlier l := by
  intro l
  induction l with
  | nil => intro seen earlier _; rfl
  | cons x xs ih =>
    intro seen earlier hinv
    have hnext : ∀ k, k ∈ dedupKey x :: seen ↔
        ((earlier ++ [x]).any fun r => decide (dedupKey r = k)) = true := by
      intro k
      simp only [List.mem_cons, List.any_append, List.any_cons, List.any_nil,
        Bool.or_eq_true, hinv k, decide_eq_true_eq]
      constructor
      · rintro (rfl | hk)
        · exact Or.inr (Or.inl rfl)
        · exact Or.inl hk
      · rintro (hk | hk | hk)
        · exact Or.inr hk
        · exact Or.inl hk.symm
        · cases hk
    by_cases hm : dedupKey x ∈ seen
    · have ha : (earlier.any fun r => decide (dedupKey r = dedupKey x)) = true :=
        (hinv _).1 hm
      have hrec : ∀ k, k ∈ seen ↔
          ((earlier ++ [x]).any fun r => decide (dedupKey r = k)) = true := by
        intro k
        simp only [List.any_append, List.any_cons, List.any_nil, Bool.or_eq_true,
          hinv k, decide_eq_true_eq]
        constructor
        · exact fun hk => Or.inl hk
        · rintro (hk | hk | hk)
          · exact hk
          · subst hk; exact (hinv _).1 hm
          · cases hk
      simp only [dedupStreamS, hm, if_true, specKeepFirsts, ha]
      exact ih seen (earlier ++ [x]) hrec
    · have ha : ¬(earlier.any fun r => decide (dedupKey r = dedupKey x)) = true :=
        fun hc => hm ((hinv _).2 hc)
      simp only [dedupStreamS, hm, if_false, specKeepFirsts,
        Bool.not_eq_true] at ha ⊢
      rw [ha]
      simp only [Bool.false_eq_true, if_false]
      exact congrArg (x :: ·) (ih (dedupKey x :: seen) (earlier ++ [x]) hnext)

/-- The dedup pass emits pairwise-distinct keys, none of them in the
initial `seen` set. -/
theorem dedupStreamS_nodup_keys :
    ∀ (l : List SRec) (seen : List DKey),
      ((dedupStreamS l seen).1.Pairwise fun a b => dedupKey a ≠ dedupKey b) ∧
      (∀ r ∈ (dedupStreamS l seen).1, dedupKey r ∉ seen) := by
  intro l
  induction l with
  | nil => intro seen; exact ⟨List.Pairwise.nil, by simp [dedupStreamS]⟩
  | cons x xs ih =>
    intro seen
    by_cases hm : dedupKey x ∈ seen
    · simpa [dedupStreamS, hm] using ih seen
    · have hrest := ih (dedupKey x :: seen)
      simp only [dedupStreamS, hm, if_false]
      constructor
      · refine List.Pairwise.cons ?_ hrest.1
        intro b hb heq
        exact hrest.2 b hb (heq ▸ List.mem_cons_self _ _)
      · intro r hr
        rcases List.mem_cons.1 hr with rfl | hr2
        · exact hm
        · exact fun hc => hrest.2 r hr2 (List.mem_cons_of_mem _ hc)

/-- Every member of `enumFrom n l` carries an index at least `n`. -/
theorem mem_enumFrom_le {α : Type} :
    ∀ (l : List α) (n : Nat) (p : Nat × α), p ∈ List.enumFrom n l → n ≤ p.1 := by
  intro l
  induction l with
  | nil => intro n p hp; cases hp
  | cons a as ih =>
    intro n p hp
    rcases List.mem_cons.1 hp with rfl | hp2
    · exact Nat.le_refl n
    · exact Nat.le_trans (Nat.le_succ n) (ih (n + 1) p hp2)

/-- Enumeration indices are strictly increasing along the list. -/
theorem enumFrom_pairwise_lt {α : Type} :
    ∀ (l : List α) (n : Nat),
      (List.enumFrom n l).Pairwise fun a b => a.1 < b.1 := by
  intro l
  induction l with
  | nil => intro n; exact List.Pairwise.nil
  | cons a as ih =>
    intro n
    refine List.Pairwise.cons ?_ (ih (n + 1))
    intro b hb
    exact Nat.lt_of_lt_of_le (Nat.lt_succ_self n) (mem_enumFrom_le as (n + 1) b hb)

/-- Pairwise relations survive `filterMap` when the mapping transports
them. -/
theorem pairwise_filterMap_of_pairwise {α β : Type} (f : α → Option β)
    (P : α → α → Prop) (R : β → β → Prop) :
    ∀ (l : List α), l.Pairwise P →
      (∀ a b, P a b → ∀ x y, f a = some x → f b = some y → R x y) →
      (l.filterMap f).Pairwise R := by
  intro l
  induction l with
  | nil => intro _ _; exact List.Pairwise.nil
  | cons a as ih =>
    intro hp htrans
    rcases List.pairwise_cons.1 hp with ⟨ha, htl⟩
    cases hfa : f a with
    | none => simpa [List.filterMap_cons, hfa] using ih htl htrans
    | some x =>
      rw [List.filterMap_cons, hfa]
      refine List.Pairwise.cons ?_ (ih htl htrans)
      intro y hy
      rcases List.mem_filterMap.1 hy with ⟨b, hb, hfb⟩
      exact htrans a b (ha b hb) x y hfa hfb

/-- An accepted record keeps the hour and index it was standardised
with. -/
theorem standardize_fields (fb : String → Option ℚ) (pk : Option String)
    (rec : JsonV) (hour : Int) (idx : Nat) (now : ℚ) (s : SRec)
    (h : standardizeRecord fb pk rec hour idx now = some s) :
    s.source_hour = hour ∧ s.raw_index = idx := by
  unfold standardizeRecord at h
  dsimp only at h
  rcases hx : extractLatLon (flattenDict rec) with ⟨a, b⟩
  rw [hx] at h
  cases a <;> cases b
  case mk.none.none => simp at h
  case mk.none.some => simp at h
  case mk.some.none => simp at h
  case mk.some.some =>
    simp only [Option.some.injEq] at h
    subst h
    exact ⟨rfl, rfl⟩

/-- Records standardised within one hour are strictly ordered by
enumeration index (and share the hour), hence lexicographically. -/
theorem perHour_pairwise_lex (fb : String → Option ℚ) (now : ℚ) (hour : Int)
    (data : JsonV) : (perHour fb now hour data).Pairwise lexLt := by
  unfold perHour
  refine pairwise_filterMap_of_pairwise _ (fun a b => a.1 < b.1) lexLt _
    ?_ ?_
  · exact enumFrom_pairwise_lt (enumerateRecords data) 0
  · intro a b hab x y hfa hfb
    have hx := standardize_fields fb a.2.1 a.2.2 hour a.1 now x hfa
    have hy := standardize_fields fb b.2.1 b.2.2 hour b.1 now y hfb
    exact Or.inr ⟨hx.1.trans hy.1.symm, by rw [hx.2, hy.2]; exact hab⟩

/-- Every record standardised for an hour records that hour. -/
theorem perHour_hour (fb : String → Option ℚ) (now : ℚ) (hour : Int)
    (data : JsonV) (r : SRec) (h : r ∈ perHour fb now hour data) :
    r.source_hour = hour := by
  rcases List.mem_filterMap.1 h with ⟨q, _, hf⟩
  exact (standardize_fields fb q.2.1 q.2.2 hour q.1 now r hf).1

/-- When the fetched hours are strictly ascending, the standardised
stream is strictly ascending in (source hour, enumeration index). -/
theorem standardizedAll_pairwise_lex (fb : String → Option ℚ) (now : ℚ)
    (fetched : List (Int × JsonV))
    (hsort : (fetched.map Prod.fst).Pairwise (· < ·)) :
    (standardizedAll fb now fetched).Pairwise lexLt := by
  unfold standardizedAll
  rw [List.pairwise_flatten]
  constructor
  · intro l hl
    rcases List.mem_map.1 hl with ⟨p, _, rfl⟩
    exact perHour_pairwise_lex fb now p.1 p.2
  · rw [List.pairwise_map] at hsort ⊢
    refine hsort.imp ?_
    intro p q hpq a ha b hb
    exact Or.inl (by
      rw [perHour_hour fb now p.1 p.2 a ha, perHour_hour fb now q.1 q.2 b hb]
      exact hpq)

/-- C2: `build_records` retains, for every dedup key
(id, timestamp, latitude and longitude rounded to 6 decimals), exactly
the first record of the standardised stream bearing that key, dropping
every later record with an equal key and keeping all records with
distinct keys; and when the fetched hours are strictly ascending the
stream itself is in ascending (source hour, enumeration index) order, so
"first in the stream" is "first in that order". -/
theorem c2_dedup_first (fb : String → Option ℚ) (now : ℚ)
    (fetched : List (Int × JsonV))
    (hsort : (fetched.map Prod.fst).Pairwise (· < ·)) :
    buildRecords fb now fetched =
      specKeepFirsts [] (standardizedAll fb now fetched) ∧
    ((buildRecords fb now fetched).Pairwise fun a b => dedupKey a ≠ dedupKey b) ∧
    (standardizedAll fb now fetched).Pairwise lexLt := by
  refine ⟨?_, ?_, standardizedAll_pairwise_lex fb now fetched hsort⟩
  · rw [buildRecords, buildLoop_eq_dedupStreamS]
    exact dedupStreamS_eq_specKeepFirsts _ [] [] (by simp)
  · rw [buildRecords, buildLoop_eq_dedupStreamS]
    exact (dedupStreamS_nodup_keys _ []).1

/-- Witness for C2 at a concrete two-hour fetch whose hours are strictly
ascending. -/
theorem c2_dedup_first_witness :
    (([((0 : Int),
        JsonV.arr
          [JsonV.obj (.cons "lat" (JsonV.num 1) (.cons "lon" (JsonV.num 2) .nil)),
           JsonV.obj (.cons "lat" (JsonV.num 1) (.cons "lon" (JsonV.num 2) .nil))]),
       ((1 : Int),
        JsonV.arr
          [JsonV.obj (.cons "lat" (JsonV.num 1) (.cons "lon" (JsonV.num 2) .nil))])].map
        Prod.fst).Pairwise (· < ·)) ∧
    (buildRecords (fun _ => none) 0
        [((0 : Int),
          JsonV.arr
            [JsonV.obj (.cons "lat" (JsonV.num 1) (.cons "lon" (JsonV.num 2) .nil)),
             JsonV.obj (.cons "lat" (JsonV.num 1) (.cons "lon" (JsonV.num 2) .nil))]),
         ((1 : Int),
          JsonV.arr
            [JsonV.obj (.cons "lat" (JsonV.num 1) (.cons "lon" (JsonV.num 2) .nil))])] =
      specKeepFirsts []
        (standardizedAll (fun _ => none) 0
          [((0 : Int),
            JsonV.arr
              [JsonV.obj (.cons "lat" (JsonV.num 1) (.cons "lon" (JsonV.num 2) .nil)),
               JsonV.obj (.cons "lat" (JsonV.num 1) (.cons "lon" (JsonV.num 2) .nil))]),
           ((1 : Int),
            JsonV.arr
              [JsonV.obj (.cons "lat" (JsonV.num 1) (.cons "lon" (JsonV.num 2) .nil))])]) ∧
     ((buildRecords (fun _ => none) 0
        [((0 : Int),
          JsonV.arr
            [JsonV.obj (.cons "lat" (JsonV.num 1) (.cons "lon" (JsonV.num 2) .nil)),
             JsonV.obj (.cons "lat" (JsonV.num 1) (.cons "lon" (JsonV.num 2) .nil))]),
         ((1 : Int),
          JsonV.arr
            [JsonV.obj (.cons "lat" (JsonV.num 1) (.cons "lon" (JsonV.num 2) .nil))])]).Pairwise
        fun a b => dedupKey a ≠ dedupKey b) ∧
     (standardizedAll (fun _ => none) 0
        [((0 : Int),
          JsonV.arr
            [JsonV.obj (.cons "lat" (JsonV.num 1) (.cons "lon" (JsonV.num 2) .nil)),
             JsonV.obj (.cons "lat" (JsonV.num 1) (.cons "lon" (JsonV.num 2) .nil))]),
         ((1 : Int),
          JsonV.arr
            [JsonV.obj (.cons "lat" (JsonV.num 1) (.cons "lon" (JsonV.num 2) .nil))])]).Pairwise
        lexLt) :=
  ⟨by simp [List.pairwise_cons], c2_dedup_first _ _ _ (by simp [List.pairwise_cons])⟩

/-- C3 (code bug): the units regex of `extract_alt_m` recognises the
spelled-out tokens "kilometer"/"kilometers", but the conversion branch
tests `startswith("km")`, which is false for them, so such a field is
converted as feet: "1.5 kilometers" yields 1.5 × 0.3048 = 0.4572 m
instead of 1500 m.  The explicit-field conversions of the claim are
correct: `altkm` 1.5 yields 1500 m, `altft` 1000 yields 304.8 m, and
"2 km" in a string yields 2000 m. -/
theorem c3_kilometers_unit_bug :
    extractAltM [("note", JsonV.str "1.5 kilometers")] = some 0.4572 ∧
    extractAltM [("note", JsonV.str "1.5 kilometers")] ≠ some 1500 ∧
    extractAltM [("altkm", JsonV.num 1.5)] = some 1500 ∧
    extractAltM [("altft", JsonV.num 1000)] = some 304.8 ∧
    extractAltM [("note", JsonV.str "2 km")] = some 2000 := by
  refine ⟨?_, ?_, ?_, ?_, ?_⟩
  · simp [extractAltM, scanKeysCont, meterKeys, feetKeys, coerceFloat, isNull,
      scanUnitStrings, matchAltUnits, stripList, isPySpace, matchNumAt, natOfDigits,
      digitVal, findToken, unitTokens, startsWithL, boundaryOk, unitConv,
      feetToMeters, List.lookup]
    norm_num
  · simp [extractAltM, scanKeysCont, meterKeys, feetKeys, coerceFloat, isNull,
      scanUnitStrings, matchAltUnits, stripList, isPySpace, matchNumAt, natOfDigits,
      digitVal, findToken, unitTokens, startsWithL, boundaryOk, unitConv,
      feetToMeters, List.lookup]
    norm_num
  · simp [extractAltM, coerceFloat, isNull, List.lookup]
    norm_num
  · simp [extractAltM, scanKeysCont, meterKeys, feetKeys, coerceFloat, isNull,
      feetToMeters, List.lookup]
    norm_num
  · simp [extractAltM, scanKeysCont, meterKeys, feetKeys, coerceFloat, isNull,
      scanUnitStrings, matchAltUnits, stripList, isPySpace, matchNumAt, natOfDigits,
      digitVal, findToken, unitTokens, startsWithL, boundaryOk, unitConv,
      feetToMeters, List.lookup]
    norm_num

/-- C4 (counterexample): a record can contain an integer E7 longitude
(`lone7`) and still resolve the plain `lon` field: a present but
uncoercible `lnge7` entry overwrites the already-resolved `lone7` value,
and resolution falls back to the candidate list, where `lon` precedes the
E7 spellings.  So the E7 value 1230000000 (which would give 123) loses to
the plain value 3. -/
theorem c4_e7_counterexample :
    List.lookup "lone7"
        [("lone7", JsonV.num 1230000000), ("lnge7", JsonV.str "x"),
         ("lon", JsonV.num 3)] = some (JsonV.num 1230000000) ∧
    resolveLon
        [("lone7", JsonV.num 1230000000), ("lnge7", JsonV.str "x"),
         ("lon", JsonV.num 3)] = some 3 ∧
    (3 : ℚ) ≠ 1230000000 / 10000000 := by
  refine ⟨?_, ?_, ?_⟩
  · simp [List.lookup]
  · simp [resolveLon, coerceFloat, isNull, searchNum, matchNumAt, stripList,
      isPySpace, scanKeys, lonKeys, List.lookup]
  · norm_num

/-- C4 (amended): E7 precedence as the code implements it.  A numeric
`late7` always determines the latitude; a numeric `lnge7` always
determines the longitude; a numeric `lone7` determines the longitude
when no non-null `lnge7` entry is present; and with no E7 entry at all,
resolution is the ordered candidate-list scan.  (A present `lnge7` that
fails numeric coercion voids a resolved `lone7` and resolution falls
back to the candidate list, where the plain spelling precedes the E7
ones — the corner the counterexample exhibits.) -/
theorem c4_e7_amended :
    (∀ (flat : List (String × JsonV)) (q : ℚ),
      flat.lookup "late7" = some (JsonV.num q) →
      resolveLat flat = some (q / 10000000)) ∧
    (∀ (flat : List (String × JsonV)) (q : ℚ),
      flat.lookup "lnge7" = some (JsonV.num q) →
      resolveLon flat = some (q / 10000000)) ∧
    (∀ (flat : List (String × JsonV)) (q : ℚ),
      flat.lookup "lone7" = some (JsonV.num q) →
      (flat.lookup "lnge7" = none ∨ flat.lookup "lnge7" = some JsonV.null) →
      resolveLon flat = some (q / 10000000)) ∧
    (∀ flat : List (String × JsonV),
      flat.lookup "late7" = none →
      resolveLat flat = scanKeys flat latKeys) ∧
    (∀ flat : List (String × JsonV),
      flat.lookup "lone7" = none → flat.lookup "lnge7" = none →
      resolveLon flat = scanKeys flat lonKeys) := by
  refine ⟨?_, ?_, ?_, ?_, ?_⟩
  · intro flat q h
    simp [resolveLat, h, isNull, coerceFloat]
  · intro flat q h
    simp [resolveLon, h, isNull, coerceFloat]
  · intro flat q h h2
    rcases h2 with h2 | h2 <;> simp [resolveLon, h, h2, isNull, coerceFloat]
  · intro flat h
    simp [resolveLat, h]
  · intro flat h h2
    simp [resolveLon, h, h2]

/-- Witness for C4 (amended) at concrete records exercising each
clause. -/
theorem c4_e7_amended_witness :
    (List.lookup "late7" [("late7", JsonV.num 5), ("lat", JsonV.num 1)] =
        some (JsonV.num 5) ∧
     resolveLat [("late7", JsonV.num 5), ("lat", JsonV.num 1)] =
        some (5 / 10000000)) ∧
    (List.lookup "lnge7" [("lon", JsonV.num 1), ("lnge7", JsonV.num 7)] =
        some (JsonV.num 7) ∧
     resolveLon [("lon", JsonV.num 1), ("lnge7", JsonV.num 7)] =
        some (7 / 10000000)) ∧
    (List.lookup "lone7" [("lone7", JsonV.num 9), ("lon", JsonV.num 1)] =
        some (JsonV.num 9) ∧
     List.lookup "lnge7" [("lone7", JsonV.num 9), ("lon", JsonV.num 1)] = none ∧
     resolveLon [("lone7", JsonV.num 9), ("lon", JsonV.num 1)] =
        some (9 / 10000000)) ∧
    (List.lookup "late7" [("lat", JsonV.num 4)] = none ∧
     resolveLat [("lat", JsonV.num 4)] = scanKeys [("lat", JsonV.num 4)] latKeys) ∧
    (List.lookup "lone7" [("lon", JsonV.num 4)] = none ∧
     List.lookup "lnge7" [("lon", JsonV.num 4)] = none ∧
     resolveLon [("lon", JsonV.num 4)] = scanKeys [("lon", JsonV.num 4)] lonKeys) :=
  ⟨⟨by simp [List.lookup],
    c4_e7_amended.1 _ 5 (by simp [List.lookup])⟩,
   ⟨by simp [List.lookup],
    c4_e7_amended.2.1 _ 7 (by simp [List.lookup])⟩,
   ⟨by simp [List.lookup], by simp [List.lookup],
    c4_e7_amended.2.2.1 _ 9 (by simp [List.lookup]) (Or.inl (by simp [List.lookup]))⟩,
   ⟨by simp [List.lookup],
    c4_e7_amended.2.2.2.1 _ (by simp [List.lookup])⟩,
   ⟨by simp [List.lookup], by simp [List.lookup],
    c4_e7_amended.2.2.2.2 _ (by simp [List.lookup]) (by simp [List.lookup])⟩⟩

/-- C5: the magnitude heuristic treats a numeric timestamp as seconds
unless it exceeds 1e10, in which case it divides by 1000 (the two
written branches collapse to that single rule); the numeric values
1,700,000,000 and 1,700,000,000,000 under a `time` key resolve to the
same UTC instant; and a string that is a bare number follows the same
rule — all for any calendar parser `fb`. -/
theorem c5_timestamp_heuristic (fb : String → Option ℚ) :
    (∀ q : ℚ, msHeuristic q = if q > 10000000000 then q / 1000 else q) ∧
    parseTimeToIso fb [("time", JsonV.num 1700000000)] = some 1700000000 ∧
    parseTimeToIso fb [("time", JsonV.num 1700000000000)] = some 1700000000 ∧
    parseTimeToIso fb [("time", JsonV.num 1700000000)] =
      parseTimeToIso fb [("time", JsonV.num 1700000000000)] ∧
    (∀ (s : String) (q : ℚ), parseBareNum s = some q →
      parseTimeToIso fb [("time", JsonV.str s)] =
        some (if q > 10000000000 then q / 1000 else q)) := by
  have hms : ∀ q : ℚ, msHeuristic q = if q > 10000000000 then q / 1000 else q := by
    intro q
    unfold msHeuristic
    by_cases h1 : q > 1000000000000
    · rw [if_pos h1, if_pos (by linarith)]
    · rw [if_neg h1]
  have h1 : parseTimeToIso fb [("time", JsonV.num 1700000000)] =
      some 1700000000 := by
    simp only [parseTimeToIso, firstPresent, timeKeys, List.lookup]
    norm_num [isNull, msHeuristic]
  have h2 : parseTimeToIso fb [("time", JsonV.num 1700000000000)] =
      some 1700000000 := by
    simp only [parseTimeToIso, firstPresent, timeKeys, List.lookup]
    norm_num [isNull, msHeuristic]
  refine ⟨hms, h1, h2, h1.trans h2.symm, ?_⟩
  intro s q hq
  simp only [parseTimeToIso, firstPresent, timeKeys, List.lookup]
  norm_num [isNull, hq, hms]

/-- Witness for C5: the bare-number string clause at the millisecond
magnitude 1,700,000,000,000, with the trivial calendar parser. -/
theorem c5_timestamp_heuristic_witness :
    parseBareNum "1700000000000" = some 1700000000000 ∧
    parseTimeToIso (fun _ => none) [("time", JsonV.str "1700000000000")] =
      some (if (1700000000000 : ℚ) > 10000000000
            then (1700000000000 : ℚ) / 1000 else 1700000000000) := by
  have hp : parseBareNum "1700000000000" = some 1700000000000 := by
    simp [parseBareNum, stripList, isPySpace, matchNumAt, natOfDigits, digitVal]
  exact ⟨hp, (c5_timestamp_heuristic (fun _ => none)).2.2.2.2 _ _ hp⟩

/-- C6 (counterexample): the NDJSON line field order
(id, lat, lon, alt_m, time_iso, source_hour, raw_index — the dict
construction order of `standardize_record`) differs from the CSV header
order (id, time_iso, lat, lon, alt_m, source_hour, raw_index), so the
two outputs do not carry the same field ordering. -/
theorem c6_field_order_counterexample :
    (ndjsonLines [{ id := some "x", lat := 1, lon := 2, alt_m := none,
                    time_iso := 0, source_hour := 0, raw_index := 0 }]).map
        (fun l => l.map Prod.fst) ≠ [csvHeader] := by
  simp [ndjsonLines, recDict, csvHeader]

/-- C6 (amended): the writer produces one encoded record per line with
the stable field order id, lat, lon, alt_m, time_iso, source_hour,
raw_index, and a tabular file whose fixed header row is exactly
id, time_iso, lat, lon, alt_m, source_hour, raw_index; the two outputs
carry the same field set (the orders are permutations of each other) and
each CSV data row follows the header order — but the two field orders
are not the same. -/
theorem c6_field_order_amended (records : List SRec) :
    csvHeader = ["id", "time_iso", "lat", "lon", "alt_m", "source_hour",
                 "raw_index"] ∧
    (ndjsonLines records).length = records.length ∧
    (ndjsonLines records).map (fun l => l.map Prod.fst) =
      records.map (fun _ => ndjsonFieldOrder) ∧
    ndjsonFieldOrder.Perm csvHeader ∧
    csvRows records = records.map (fun r => csvHeader.map (dictGet (recDict r))) ∧
    ndjsonFieldOrder ≠ csvHeader := by
  refine ⟨rfl, by simp [ndjsonLines], ?_, ?_, ?_, by decide⟩
  · rw [ndjsonLines, List.map_map]
    exact List.map_congr_left (fun r _ => rfl)
  · decide
  · rw [csvRows]
    exact List.map_congr_left (fun r _ => rfl)

/-- C7: an object all of whose values are objects is enumerated as an
id-keyed map, each key becoming the parent key of its record; with no
truthy identity candidate in the flattened record, the emitted id is the
parent key; and the decoded input corresponding to
`{"b1": {"lat": 5, "lon": 6}}` yields exactly one record with id "b1",
latitude 5 and longitude 6 (with the trivial calendar parser and wall
clock 0 for the timestamp fallback). -/
theorem c7_parent_key_id :
    (∀ kvs : JsonKVs,
      (kvs.toList.all fun kv => isObjV kv.2) = true →
      enumerateRecords (JsonV.obj kvs) =
        kvs.toList.map (fun kv => (some kv.1, kv.2))) ∧
    (∀ (pk : String) (flat : List (String × JsonV)),
      pk ≠ "" → firstTruthy flat idKeys = none →
      extractId (some pk) flat = some pk) ∧
    buildRecords (fun _ => none) 0
      [((0 : Int),
        JsonV.obj (.cons "b1"
          (JsonV.obj (.cons "lat" (JsonV.num 5) (.cons "lon" (JsonV.num 6) .nil)))
          .nil))] =
      [{ id := some "b1", lat := 5, lon := 6, alt_m := none, time_iso := 0,
         source_hour := 0, raw_index := 0 }] := by
  refine ⟨?_, ?_, ?_⟩
  · intro kvs hall
    have hcands : kvs.toList.filterMap (fun kv =>
        match kv.2 with
        | JsonV.arr l => if headObjOrEmpty l then some l else none
        | _ => none) = ([] : List (List JsonV)) := by
      rw [List.filterMap_eq_nil_iff]
      intro kv hkv
      have hobj := List.all_eq_true.1 hall kv hkv
      rcases kv with ⟨k, v⟩
      cases v <;> simp_all [isObjV]
    simp only [enumerateRecords, hcands, hall, if_true]
  · intro pk flat hpk hft
    simp [extractId, hft, hpk]
  · simp [buildRecords, buildLoop, hourLoop, enumerateRecords, JsonKVs.toList,
      isObjV, standardizeRecord, flattenDict, flattenKVs, flattenV, dictSet,
      normalizeKey, stripList, isPySpace, isLowerAlphaNum, replPairs, replaceAllL,
      startsWithL, extractLatLon, resolveLat, resolveLon, scanKeys, latKeys,
      lonKeys, coerceFloat, isNull, List.lookup, extractAltM, scanKeysCont,
      meterKeys, feetKeys, scanUnitStrings, parseTimeToIso, firstPresent, timeKeys,
      extractId, firstTruthy, idKeys, truthy, approxTime, List.enum, dedupKey,
      pyRound6, pyRoundHalfEven]
    norm_num [Rat.floor_def']

/-- Witness for C7: the enumeration clause at the singleton id-keyed map
and the identity clause at its flattened record. -/
theorem c7_parent_key_id_witness :
    (((JsonKVs.cons "b1"
          (JsonV.obj (.cons "lat" (JsonV.num 5) (.cons "lon" (JsonV.num 6) .nil)))
          .nil).toList.all fun kv => isObjV kv.2) = true ∧
      enumerateRecords (JsonV.obj (.cons "b1"
          (JsonV.obj (.cons "lat" (JsonV.num 5) (.cons "lon" (JsonV.num 6) .nil)))
          .nil)) =
        (JsonKVs.cons "b1"
          (JsonV.obj (.cons "lat" (JsonV.num 5) (.cons "lon" (JsonV.num 6) .nil)))
          .nil).toList.map (fun kv => (some kv.1, kv.2))) ∧
    (("b1" : String) ≠ "" ∧
     firstTruthy [("lat", JsonV.num 5), ("lon", JsonV.num 6)] idKeys = none ∧
     extractId (some "b1") [("lat", JsonV.num 5), ("lon", JsonV.num 6)] =
       some "b1") :=
  ⟨⟨by decide,
    c7_parent_key_id.1 _ (by decide)⟩,
   ⟨by decide,
    by simp [firstTruthy, idKeys, List.lookup],
    c7_parent_key_id.2.1 "b1" _ (by decide)
      (by simp [firstTruthy, idKeys, List.lookup])⟩⟩

/-- Splitting the fetch outcomes into successes and failures loses no
hour: the two projections together are a permutation of all attempted
hours. -/
theorem outcomes_partition_perm :
    ∀ l : List (Nat × Option JsonV × Option String),
      ((l.filterMap (fun t =>
          match t with
          | (h, some d, none) => some (h, d)
          | _ => none)).map Prod.fst ++
       (l.filterMap (fun t =>
          match t with
          | (_, some _, none) => none
          | (h, _, some e) => some (h, e)
          | (h, none, none) => some (h, "unknown error"))).map Prod.fst).Perm
        (l.map Prod.fst) := by
  intro l
  induction l with
  | nil => simp
  | cons t ts ih =>
    rcases t with ⟨h, d, e⟩
    cases d with
    | some v =>
      cases e with
      | none => simpa using ih.cons h
      | some msg =>
        simp only [List.filterMap_cons, List.map_cons]
        exact ((ih.symm.cons h).trans List.perm_middle.symm).symm
    | none =>
      cases e with
      | none =>
        simp only [List.filterMap_cons, List.map_cons]
        exact ((ih.symm.cons h).trans List.perm_middle.symm).symm
      | some msg =>
        simp only [List.filterMap_cons, List.map_cons]
        exact ((ih.symm.cons h).trans List.perm_middle.symm).symm

/-- A fetch outcome is tagged with the hour it was attempted for. -/
theorem fetchOne_fst (net : Nat → Except String String)
    (jsonL json5L : String → Except String JsonV) (hour : Nat) :
    (fetchOne net jsonL json5L hour).1 = hour := by
  unfold fetchOne
  cases net hour <;> rfl

/-- C8: for any network, parser and clock behaviour, the pipeline
completes with status 0; the fetched and failed hour lists together are
exactly the attempted range `[0, clamped hours)`; and when every hour
fails (fetch error or unrecovered decode) the record list and both
output files are empty (the tabular file retaining only its fixed
header row). -/
theorem c8_no_abort (net : Nat → Except String String)
    (jsonL json5L : String → Except String JsonV)
    (fb : String → Option ℚ) (now : ℚ) (hoursArg : Int) :
    (mainModel net jsonL json5L fb now hoursArg).exitCode = 0 ∧
    (((mainModel net jsonL json5L fb now hoursArg).results.map Prod.fst ++
      (mainModel net jsonL json5L fb now hoursArg).errors.map Prod.fst).Perm
        (List.range (max 1 (min 24 hoursArg)).toNat)) ∧
    ((∀ h, hourFails net jsonL json5L h) →
      (mainModel net jsonL json5L fb now hoursArg).records = [] ∧
      (mainModel net jsonL json5L fb now hoursArg).ndjson = [] ∧
      (mainModel net jsonL json5L fb now hoursArg).csv = []) := by
  refine ⟨rfl, ?_, ?_⟩
  · have hperm := outcomes_partition_perm
      ((List.range (max 1 (min 24 hoursArg)).toNat).map (fetchOne net jsonL json5L))
    have hmap : ((List.range (max 1 (min 24 hoursArg)).toNat).map
        (fetchOne net jsonL json5L)).map Prod.fst =
        List.range (max 1 (min 24 hoursArg)).toNat := by
      rw [List.map_map]
      have : (Prod.fst ∘ fetchOne net jsonL json5L) = fun h => h := by
        funext h
        exact fetchOne_fst net jsonL json5L h
      rw [this, List.map_id']
    rw [hmap] at hperm
    exact hperm
  · intro hfail
    have hres : (mainModel net jsonL json5L fb now hoursArg).results = [] := by
      show ((List.range (max 1 (min 24 hoursArg)).toNat).map
          (fetchOne net jsonL json5L)).filterMap _ = []
      rw [List.filterMap_eq_nil_iff]
      intro t ht
      rcases List.mem_map.1 ht with ⟨h, _, rfl⟩
      have := hfail h
      unfold hourFails at this
      unfold fetchOne
      cases hn : net h with
      | error e => simp
      | ok text =>
        rw [hn] at this
        simp [this]
    refine ⟨?_, ?_, ?_⟩
    · show buildRecords fb now
        (((mainModel net jsonL json5L fb now hoursArg).results).map _) = []
      rw [hres]
      rfl
    · show ndjsonLines (buildRecords fb now
        (((mainModel net jsonL json5L fb now hoursArg).results).map _)) = []
      rw [hres]
      rfl
    · show csvRows (buildRecords fb now
        (((mainModel net jsonL json5L fb now hoursArg).results).map _)) = []
      rw [hres]
      rfl

/-- Witness for C8: a run of 2 hours in which every fetch raises; both
outputs are empty and the exit code is 0. -/
theorem c8_no_abort_witness :
    (∀ h, hourFails (fun _ => Except.error "connection refused")
        (fun _ => Except.error "parse") (fun _ => Except.error "parse") h) ∧
    (mainModel (fun _ => Except.error "connection refused")
        (fun _ => Except.error "parse") (fun _ => Except.error "parse")
        (fun _ => none) 0 2).records = [] ∧
    (mainModel (fun _ => Except.error "connection refused")
        (fun _ => Except.error "parse") (fun _ => Except.error "parse")
        (fun _ => none) 0 2).ndjson = [] ∧
    (mainModel (fun _ => Except.error "connection refused")
        (fun _ => Except.error "parse") (fun _ => Except.error "parse")
        (fun _ => none) 0 2).csv = [] ∧
    (mainModel (fun _ => Except.error "connection refused")
        (fun _ => Except.error "parse") (fun _ => Except.error "parse")
        (fun _ => none) 0 2).exitCode = 0 := by
  have hfail : ∀ h, hourFails (fun _ => Except.error "connection refused")
      (fun _ => Except.error "parse") (fun _ => Except.error "parse") h := by
    intro h
    simp [hourFails]
  have hmain := c8_no_abort (fun _ => Except.error "connection refused")
    (fun _ => Except.error "parse") (fun _ => Except.error "parse")
    (fun _ => none) 0 2
  exact ⟨hfail, (hmain.2.2 hfail).1, (hmain.2.2 hfail).2.1,
    (hmain.2.2 hfail).2.2, hmain.1⟩

/-- C9: the number of hours actually attempted by a run is the requested
hours option clamped to `[1, 24]`; in particular a request of 50 attempts
24 hours and a request of 0 attempts 1 hour. -/
theorem c9_hours_clamp (net : Nat → Except String String)
    (jsonL json5L : String → Except String JsonV)
    (fb : String → Option ℚ) (now : ℚ) (hoursArg : Int) :
    ((mainModel net jsonL json5L fb now hoursArg).results.length +
     (mainModel net jsonL json5L fb now hoursArg).errors.length =
       (max 1 (min 24 hoursArg)).toNat) ∧
    (max 1 (min 24 (50 : Int))).toNat = 24 ∧
    (max 1 (min 24 (0 : Int))).toNat = 1 := by
  refine ⟨?_, by decide, by decide⟩
  have hperm := outcomes_partition_perm
    ((List.range (max 1 (min 24 hoursArg)).toNat).map (fetchOne net jsonL json5L))
  have hlen := hperm.length_eq
  simp only [List.length_append, List.length_map, List.length_range] at hlen
  exact hlen

/-- C10: the decoder ladder is total by construction — it returns an
optional value rather than propagating any parser exception (each
fallible parse is an `Except` whose error branch the ladder absorbs) —
and it returns "no value" exactly when all four strategies fail: the
strict parse, the lenient parse, the lenient parse of the repaired text,
and balanced-fragment extraction from the repaired text. -/
theorem c10_decoder_total (jsonL json5L : String → Except String JsonV)
    (text : String) :
    tryJsonLoads jsonL json5L text = none ↔
      (isErrE (jsonL text) = true ∧ isErrE (json5L text) = true ∧
       isErrE (json5L (repairText text)) = true ∧
       tryExtractJsonFragment json5L (repairText text) = none) := by
  unfold tryJsonLoads
  cases h1 : jsonL text with
  | ok v => simp [isErrE]
  | error e1 =>
    cases h2 : json5L text with
    | ok v => simp [isErrE, h2]
    | error e2 =>
      cases h3 : json5L (repairText text) with
      | ok v => simp [isErrE, h2, h3]
      | error e3 => simp [isErrE, h2, h3]
